import Mathlib

/-!
Shallow embedding of `src/server.py` (Universal Music Server) and proofs
about the claims of its specification.

Conventions of the embedding:
* Python strings are Lean `String`s; character-level processing works on
  `List Char` (`String.data`).
* Machine I/O (the filesystem, the mutagen tag parser, the `mimetypes`
  table) is an oracle packaged in the `FS` structure; everything the Python
  code computes itself is translated function by function.
* Python exceptions are modelled with `PyResult` where a function can
  raise across an abstraction boundary; `try/except` blocks become matches
  on it.
* Bytes are `Nat`s below 256; 32-bit arithmetic in SHA-1 is `Nat`
  arithmetic reduced `% 2^32`.
-/

set_option maxRecDepth 100000

namespace MusicServer

/-! ## Bytes and UTF-8 (`str.encode('utf-8')`) -/

/-- UTF-8 encoding of one code point, as bytes (each < 256). -/
def utf8BytesOfChar (c : Char) : List Nat :=
  let n := c.toNat
  if n < 128 then [n]
  else if n < 2048 then [192 + n / 64, 128 + n % 64]
  else if n < 65536 then [224 + n / 4096, 128 + (n / 64) % 64, 128 + n % 64]
  else [240 + n / 262144, 128 + (n / 4096) % 64, 128 + (n / 64) % 64, 128 + n % 64]

/-- Model of Python `s.encode('utf-8')`. -/
def strBytes (s : String) : List Nat := s.data.flatMap utf8BytesOfChar

/-! ## SHA-1 (`hashlib.sha1(...).hexdigest()`)

The server derives song ids with `hashlib.sha1`; we implement the FIPS 180
SHA-1 function over byte lists so that the id scheme is a real function in
the model. -/

/-- Reduce to a 32-bit word. -/
def w32 (n : Nat) : Nat := n % 4294967296

/-- Rotate a 32-bit word left by `b` bits. -/
def rotl (b n : Nat) : Nat := w32 ((n <<< b) ||| (n >>> (32 - b)))

/-- Big-endian bytes of `n`, `k` bytes wide. -/
def beBytes (k n : Nat) : List Nat :=
  match k with
  | 0 => []
  | k + 1 => beBytes k (n / 256) ++ [n % 256]

/-- SHA-1 message padding: append `0x80`, zeros, and the 64-bit bit length. -/
def sha1Pad (msg : List Nat) : List Nat :=
  let len := msg.length
  let zeros := (120 - (len + 1) % 64) % 64
  msg ++ [128] ++ List.replicate zeros 0 ++ beBytes 8 (8 * len)

/-- Pack bytes into big-endian 32-bit words. -/
def bytesToWords : List Nat → List Nat
  | a :: b :: c :: d :: rest => (a * 16777216 + b * 65536 + c * 256 + d) :: bytesToWords rest
  | _ => []

/-- One extension step appends the rotated xor of the scheduled words. -/
def sha1ExtendAux : Nat → List Nat → List Nat
  | 0, ws => ws
  | n + 1, ws =>
    let l := ws.length
    sha1ExtendAux n (ws ++
      [rotl 1 (Nat.xor (Nat.xor (ws.getD (l - 3) 0) (ws.getD (l - 8) 0))
                       (Nat.xor (ws.getD (l - 14) 0) (ws.getD (l - 16) 0)))])

/-- Extend the 16 words of a block to the 80-word schedule. -/
def sha1Extend (ws : List Nat) : List Nat := sha1ExtendAux (80 - ws.length) ws

/-- SHA-1 round function for round `t`. -/
def sha1F (t b c d : Nat) : Nat :=
  if t < 20 then Nat.lor (Nat.land b c) (Nat.land (Nat.xor b 4294967295) d)
  else if t < 40 then Nat.xor (Nat.xor b c) d
  else if t < 60 then Nat.lor (Nat.lor (Nat.land b c) (Nat.land b d)) (Nat.land c d)
  else Nat.xor (Nat.xor b c) d

/-- SHA-1 round constant for round `t`. -/
def sha1K (t : Nat) : Nat :=
  if t < 20 then 1518500249
  else if t < 40 then 1859775393
  else if t < 60 then 2400959708
  else 3395469782

/-- One SHA-1 compression over a 64-byte block. -/
def sha1Compress (block : List Nat) (h : Nat × Nat × Nat × Nat × Nat) :
    Nat × Nat × Nat × Nat × Nat :=
  let ws := sha1Extend (bytesToWords block)
  let out := (List.range 80).foldl
    (fun st t =>
      let a := st.1
      let b := st.2.1
      let c := st.2.2.1
      let d := st.2.2.2.1
      let e := st.2.2.2.2
      let temp := w32 (rotl 5 a + sha1F t b c d + e + sha1K t + ws.getD t 0)
      (temp, a, rotl 30 b, c, d))
    h
  (w32 (h.1 + out.1), w32 (h.2.1 + out.2.1), w32 (h.2.2.1 + out.2.2.1),
   w32 (h.2.2.2.1 + out.2.2.2.1), w32 (h.2.2.2.2 + out.2.2.2.2))

/-- Block processing with enough fuel (one unit covers at least one
64-byte block, so `msg.length` units always suffice). -/
def sha1BlocksAux : Nat → List Nat → Nat × Nat × Nat × Nat × Nat →
    Nat × Nat × Nat × Nat × Nat
  | 0, _, h => h
  | fuel + 1, msg, h =>
    if msg.length = 0 then h
    else sha1BlocksAux fuel (msg.drop 64) (sha1Compress (msg.take 64) h)

/-- Process a padded message 64 bytes at a time. -/
def sha1Blocks (msg : List Nat) (h : Nat × Nat × Nat × Nat × Nat) :
    Nat × Nat × Nat × Nat × Nat :=
  sha1BlocksAux msg.length msg h

/-- Lower-case hex digit. -/
def hexDigit (n : Nat) : Char := if n < 10 then Char.ofNat (48 + n) else Char.ofNat (87 + n)

/-- Eight lower-case hex digits of a 32-bit word. -/
def wordHex (n : Nat) : List Char := (beBytes 4 n).flatMap (fun b => [hexDigit (b / 16), hexDigit (b % 16)])

/-- Model of `hashlib.sha1(bytes).hexdigest()`. -/
def sha1Hex (msg : List Nat) : String :=
  let h := sha1Blocks (sha1Pad msg) (1732584193, 4023233417, 2562383102, 271733878, 3285377520)
  ⟨wordHex h.1 ++ wordHex h.2.1 ++ wordHex h.2.2.1 ++ wordHex h.2.2.2.1 ++ wordHex h.2.2.2.2⟩

/-- Model of `hashlib.sha1(s.encode('utf-8')).hexdigest()`. -/
def sha1HexOfString (s : String) : String := sha1Hex (strBytes s)

/-! ## String helpers shared by several handlers -/

/-- Model of Python `str.split(sep)` for a one-character separator:
`''.split('-') = ['']`, `'a-b'.split('-') = ['a','b']`. -/
def splitOnChar (sep : Char) : List Char → List (List Char)
  | [] => [[]]
  | c :: rest =>
    match splitOnChar sep rest with
    | [] => if c = sep then [[], []] else [[c]]
    | h :: t => if c = sep then [] :: h :: t else (c :: h) :: t

/-- Model of Python `s.startswith(pre)`. -/
def pyStartswith (s pre : String) : Bool := decide (s.data.take pre.data.length = pre.data)

/-- Last element of `str.split('/')`, i.e. Python `path.split('/')[-1]`. -/
def lastSlashComponent (p : String) : List Char :=
  ((splitOnChar '/' p.data).getLast?).getD []

/-- Index of the last `'.'` in a list of characters (`str.rfind('.')`). -/
def rfindDot (l : List Char) : Option Nat :=
  match l.reverse.findIdx? (fun c => c == '.') with
  | none => none
  | some j => some (l.length - 1 - j)

/-- Model of `pathlib.PurePath.suffix`: the extension of the final
component including the dot, empty when the last dot is leading or
trailing. -/
def pySuffix (p : String) : String :=
  let name := lastSlashComponent p
  match rfindDot name with
  | none => ""
  | some i => if 0 < i ∧ i < name.length - 1 then ⟨name.drop i⟩ else ""

/-- Model of `pathlib.PurePath.stem`: the final component without its
suffix. -/
def pyStem (p : String) : String :=
  let name := lastSlashComponent p
  match rfindDot name with
  | none => ⟨name⟩
  | some i => if 0 < i ∧ i < name.length - 1 then ⟨name.take i⟩ else ⟨name⟩

/-- Model of Python `str.lower()` (character-wise, which covers the
ASCII extensions compared here). -/
def pyLower (s : String) : String := ⟨s.data.map Char.toLower⟩

/-- Model of Python truthiness of `value or default` where `value` is an
optional string: `None` and `''` both fall back. -/
def pyOr (v : Option String) (dflt : String) : String :=
  match v with
  | some s => if s = "" then dflt else s
  | none => dflt

/-! ## Python dict (`self.server.id_to_path`)

Modelled as an insertion-ordered association list with unique keys:
`d[k] = v` overwrites in place or appends, `d.get(k)` is the first (hence
only) binding. -/

/-- Model of `d[k] = v` on a Python dict. -/
def dictInsert (d : List (String × String)) (k v : String) : List (String × String) :=
  if (d.lookup k).isSome then d.map (fun kv => if kv.1 = k then (k, v) else kv)
  else d ++ [(k, v)]

/-- Model of `d.get(k)` on a Python dict. -/
def dictGet (d : List (String × String)) (k : String) : Option String :=
  d.lookup k

/-! ## Data model: song records, metadata oracle, server state -/

/-- One entry of the JSON song record built by `extract_metadata` /
the fallback branch of `scan_music_directory`. -/
structure Song where
  id : String
  title : String
  artist : String
  album : String
  duration : Nat
  filepath : String
  albumArt : Option String
deriving DecidableEq, Repr

/-- Outcome of handing one file to the mutagen library inside
`extract_metadata`.  `cantOpen` is `mutagen.File(path)` returning `None`
(unrecognised container); `raisesDuringExtract` is any exception raised
while opening or reading tags; `opened` carries the values the tag-probing
helpers (`get_tag_value`, `info.length`, `has_album_art`) would produce:
per-field optional strings (with `some ""` a present-but-empty tag),
the integer duration, and the artwork-presence bit. -/
inductive MetaResult
  | cantOpen
  | raisesDuringExtract
  | opened (title artist album : Option String) (duration : Nat) (hasArt : Bool)
deriving DecidableEq, Repr

/-- Python control flow for a call that can raise: `ok` is a normal
return, `exc` an exception propagating to the caller. -/
inductive PyResult (α : Type)
  | ok (a : α)
  | exc
deriving DecidableEq, Repr

/-- One filesystem object as seen by `music_directory.rglob('*')`:
its path string, whether it is a regular file, the string
`str(Path(path).resolve())`, and the metadata oracle for it. -/
structure Entry where
  path : String
  isFile : Bool
  resolved : String
  meta : MetaResult
deriving DecidableEq, Repr

/-- An embedded picture as the album-art handler reads it (frame `.data`
and `.mime`). -/
structure Pic where
  data : List Nat
  mime : String
deriving DecidableEq, Repr

/-- An MP4 `covr` atom entry: its bytes and whether `imageformat` is
`AtomDataType.JPEG`. -/
structure Mp4Cover where
  data : List Nat
  isJpegFormat : Bool
deriving DecidableEq, Repr

/-- The tag structure `serve_album_art` inspects.  `truthy` is the Python
truthiness of the tags object (`not audio_file.tags`); `items` is
`tags.items()` in iteration order (only entries whose key begins with
`APIC:` have their `Pic` fields read); `pictures` is `tags.pictures` when
that attribute exists (empty otherwise); `covr` is the `covr` atom list
(empty when `'covr' not in tags`). -/
structure ArtTags where
  truthy : Bool
  items : List (String × Pic)
  pictures : List Pic
  covr : List Mp4Cover
deriving DecidableEq, Repr

/-- Outcome of `mutagen.File(path)` in `serve_album_art`: an exception,
`None`, or an audio object whose `tags` attribute is missing/`None`
(`none`) or present. -/
inductive AudioFileResult
  | raisesOpen
  | noFile
  | opened (tags : Option ArtTags)
deriving DecidableEq, Repr

/-- The world outside the Python code: filesystem and external-library
oracles.  `entries` is what `music_directory.rglob('*')` yields,
`fexists` is `Path(p).exists()`, `resolveParts` the components of
`Path(p).resolve()`, `content` the bytes of a file, `guessType` the
`mimetypes.guess_type` table, `audioOf` the mutagen view used by the
album-art handler, `readText` a text read from disk for static files. -/
structure FS where
  entries : List Entry
  fexists : String → Bool
  resolveParts : String → List String
  content : String → List Nat
  guessType : String → Option String
  audioOf : String → AudioFileResult
  readText : String → Option String
  staticRootDir : String

/-- The mutable attributes attached to the HTTP server object
(`self.server.songs_cache`, `self.server.id_to_path`). -/
structure ServerState where
  songs_cache : Option (List Song)
  id_to_path : List (String × String)
deriving DecidableEq, Repr

/-! ## `extract_metadata` and `scan_music_directory` -/

/-- Model of `extract_metadata` (src/server.py lines 218-251).  Every
failure path is caught by its own `try/except` and returns `None`, so the
result is always `PyResult.ok`; the id is the SHA-1 of the resolved
absolute path, and absent/empty tag values fall back per field. -/
def extract_metadata (e : Entry) : PyResult (Option Song) :=
  match e.meta with
  | .cantOpen => .ok none
  | .raisesDuringExtract => .ok none
  | .opened t a al d art =>
    let song_id := sha1HexOfString e.resolved
    .ok (some
      { id := song_id
        title := pyOr t (pyStem e.path)
        artist := pyOr a "Unknown Artist"
        album := pyOr al "Unknown Album"
        duration := d
        filepath := e.path
        albumArt := if art then some ("/api/album-art?id=" ++ song_id) else none })

/-- The record the `except` branch of `scan_music_directory` (lines
199-210) would synthesize when `extract_metadata` raises. -/
def scanFallbackSong (e : Entry) : Song :=
  { id := sha1HexOfString e.resolved
    title := pyStem e.path
    artist := "Unknown Artist"
    album := "Unknown Album"
    duration := 0
    filepath := e.path
    albumArt := none }

/-- The extension filter of the scan loop (line 189):
`file_path.is_file() and file_path.suffix.lower() in supported_formats`. -/
def isSupported (e : Entry) : Bool :=
  e.isFile && [".mp3", ".flac", ".m4a", ".ogg", ".wav"].contains (pyLower (pySuffix e.path))

/-- The body of the `rglob` loop of `scan_music_directory` (lines
188-211): accumulate songs and update the shared id map.  A `None` from
`extract_metadata` appends nothing (`if song_info:`); only a raised
exception would reach the fallback branch. -/
def scanFold : List Entry → List Song → List (String × String) →
    List Song × List (String × String)
  | [], songs, m => (songs, m)
  | e :: rest, songs, m =>
    if isSupported e then
      match extract_metadata e with
      | .ok (some s) => scanFold rest (songs ++ [s]) (dictInsert m s.id e.path)
      | .ok none => scanFold rest songs m
      | .exc => scanFold rest (songs ++ [scanFallbackSong e])
          (dictInsert m (scanFallbackSong e).id e.path)
    else scanFold rest songs m

/-- The songs a scan of `es` discovers, independent of the accumulator and
of the pre-existing id map. -/
def scanSongs : List Entry → List Song
  | [] => []
  | e :: rest =>
    if isSupported e then
      match extract_metadata e with
      | .ok (some s) => s :: scanSongs rest
      | .ok none => scanSongs rest
      | .exc => scanFallbackSong e :: scanSongs rest
    else scanSongs rest

/-- Model of `scan_music_directory` (lines 166-216): return the cache
unless absent or `force`; a missing music directory installs an empty
cache and resets the id map; otherwise walk the entries, install the song
list as the new cache, and extend (never reset) the id map. -/
def scan_music_directory (fs : FS) (musicDir : String) (st : ServerState) (force : Bool) :
    List Song × ServerState :=
  if force = false ∧ st.songs_cache.isSome then (st.songs_cache.getD [], st)
  else if fs.fexists musicDir = false then
    ([], { songs_cache := some [], id_to_path := [] })
  else
    let r := scanFold fs.entries [] st.id_to_path
    (r.1, { songs_cache := some r.1, id_to_path := r.2 })

/-! ## Percent decoding (`urllib.parse.unquote` / `unquote_plus`)

Modelled at byte-for-character level: a valid `%xx` escape becomes the
character of that byte value, invalid escapes stay literal.  (CPython
additionally groups consecutive escapes ≥ 0x80 into a UTF-8 decode with
replacement characters; every valid escape still consumes three input
characters for at most one output character, which is all the claims
need, and all concrete inputs used below are ASCII.) -/

/-- Value of a hexadecimal digit character, if it is one. -/
def hexVal (c : Char) : Option Nat :=
  if '0' ≤ c ∧ c ≤ '9' then some (c.toNat - 48)
  else if 'a' ≤ c ∧ c ≤ 'f' then some (c.toNat - 87)
  else if 'A' ≤ c ∧ c ≤ 'F' then some (c.toNat - 55)
  else none

/-- Character-level percent decoding. -/
def unquoteChars : List Char → List Char
  | [] => []
  | '%' :: a :: b :: rest =>
    match hexVal a, hexVal b with
    | some hi, some lo => Char.ofNat (16 * hi + lo) :: unquoteChars rest
    | _, _ => '%' :: unquoteChars (a :: b :: rest)
  | c :: rest => c :: unquoteChars rest

/-- Model of `urllib.parse.unquote`. -/
def unquoteStr (s : String) : String := ⟨unquoteChars s.data⟩

/-- The `'+' → ' '` replacement `unquote_plus` performs before decoding. -/
def plusToSpace (l : List Char) : List Char :=
  l.map (fun c => if c = '+' then ' ' else c)

/-- Model of `urllib.parse.unquote_plus`, the decoding `parse_qs` applies
to every name and value. -/
def unquotePlusStr (s : String) : String := ⟨unquoteChars (plusToSpace s.data)⟩

/-- `l` contains a valid `%xx` escape sequence. -/
def hasEscape : List Char → Bool
  | '%' :: a :: b :: rest =>
    ((hexVal a).isSome && (hexVal b).isSome) || hasEscape (a :: b :: rest)
  | _ :: rest => hasEscape rest
  | [] => false

/-! ## Query-string parsing (`urllib.parse.parse_qs`) -/

/-- Split at the first `'='`, Python `s.split('=', 1)` with two parts. -/
def splitFirstEq : List Char → Option (List Char × List Char)
  | [] => none
  | c :: rest =>
    if c = '=' then some ([], rest)
    else match splitFirstEq rest with
      | none => none
      | some nv => some (c :: nv.1, nv.2)

/-- One `name=value` pair of `parse_qsl` with default options: pairs
without `'='` and pairs whose raw value is empty are dropped
(`keep_blank_values=False`); names and values are `unquote_plus`-decoded. -/
def parsePair (pair : List Char) : Option (String × String) :=
  match splitFirstEq pair with
  | none => none
  | some nv =>
    if nv.2 = [] then none
    else some (⟨unquoteChars (plusToSpace nv.1)⟩, ⟨unquoteChars (plusToSpace nv.2)⟩)

/-- Model of `urllib.parse.parse_qs` restricted to what `do_GET` uses:
the ordered list of decoded pairs. -/
def parse_qs (qs : String) : List (String × String) :=
  (splitOnChar '&' qs.data).filterMap parsePair

/-- Model of `query.get(key, [''])[0]`: the first value bound to `key`,
or `''`. -/
def queryGetFirst (q : List (String × String)) (key : String) : String :=
  match q.find? (fun kv => kv.1 == key) with
  | some kv => kv.2
  | none => ""

/-! ## HTTP responses -/

/-- What a handler writes after the status line: nothing yet, raw bytes,
a UTF-8 text, one of the two JSON shapes (serialization itself is the
standard library's), or `send_error`'s error page. -/
inductive BodyData
  | empty
  | bytes (bs : List Nat)
  | text (s : String)
  | jsonSongs (songs : List Song)
  | jsonScanResult (songs : List Song)
  | errorPage (msg : String)
deriving DecidableEq, Repr

/-- The observable response: status code, the headers the claims talk
about, and the streamed body.  `contentRange` is the
`bytes start-end/size` triple. -/
structure Response where
  status : Nat
  contentType : Option String := none
  contentLength : Option Int := none
  contentRange : Option (Int × Int × Int) := none
  acceptRanges : Bool := false
  body : BodyData := BodyData.empty
deriving DecidableEq, Repr

/-- Model of `BaseHTTPRequestHandler.send_error`. -/
def sendError (code : Nat) (msg : String) : Response :=
  { status := code, body := BodyData.errorPage msg }

/-! ## Range streaming (`handle_range_request`, lines 438-473) -/

/-- Model of `range_header.replace('bytes=', '')`: remove every
occurrence of the 6-character substring, scanning left to right. -/
def removeBytesEq : List Char → List Char
  | 'b' :: 'y' :: 't' :: 'e' :: 's' :: '=' :: rest => removeBytesEq rest
  | c :: rest => c :: removeBytesEq rest
  | [] => []

/-- Model of Python `int(s)` on the pieces a `'-'`-split can produce:
a nonempty digit string converts, anything else raises (`none`). -/
def pyIntDigits (l : List Char) : Option Int :=
  if l ≠ [] ∧ l.all Char.isDigit then
    some (l.foldl (fun acc c => 10 * acc + (c.toNat - 48)) 0 : Nat)
  else none

/-- Lines 442-444: strip `bytes=`, split on `'-'`, convert the first two
pieces with defaults `0` and `file_size - 1`.  `none` is the `except`
path (an `IndexError` on a headerless split or a `ValueError` from
`int`). -/
def parseRangeBounds (rangeHeader : String) (fileSize : Nat) : Option (Int × Int) :=
  match splitOnChar '-' (removeBytesEq rangeHeader.data) with
  | [] => none
  | [_] => none
  | p0 :: p1 :: _ =>
    let startO : Option Int := if p0 = [] then some 0 else pyIntDigits p0
    let endO : Option Int := if p1 = [] then some ((fileSize : Int) - 1) else pyIntDigits p1
    match startO, endO with
    | some s, some e => some (s, e)
    | _, _ => none

/-- The 8 KiB read loop with fuel: every iteration shrinks `remaining`
by at least one, so `remaining` units of fuel always suffice. -/
def streamLoopAux : Nat → List Nat → Nat → Nat → List Nat
  | 0, _, _, _ => []
  | fuel + 1, file, pos, remaining =>
    if remaining = 0 then []
    else
      let chunk := (file.drop pos).take (min 8192 remaining)
      if chunk = [] then []
      else chunk ++ streamLoopAux fuel file (pos + chunk.length) (remaining - chunk.length)

/-- The 8 KiB read loop of lines 460-469: seek to `pos`, read
`min(8192, remaining)` at a time, stop at EOF or when `remaining` bytes
have been written. -/
def streamLoop (file : List Nat) (pos remaining : Nat) : List Nat :=
  streamLoopAux remaining file pos remaining

/-- Model of `handle_range_request` (lines 438-473): parse the header,
clamp `start` from below by 0 and `end` from above by `file_size - 1`,
unconditionally respond 206 with `Content-Length = end - start + 1`, and
run the chunked read loop (which writes nothing when that length is not
positive).  A parsing exception is answered 500. -/
def handle_range_request (file : List Nat) (mime : String) (rangeHeader : String) : Response :=
  match parseRangeBounds rangeHeader file.length with
  | none => sendError 500 "Error handling range request"
  | some se =>
    let start : Int := max 0 se.1
    let endV : Int := min ((file.length : Int) - 1) se.2
    let contentLength : Int := endV - start + 1
    { status := 206
      contentType := some mime
      contentLength := some contentLength
      contentRange := some (start, endV, (file.length : Int))
      acceptRanges := true
      body := BodyData.bytes (streamLoop file start.toNat contentLength.toNat) }

/-! ## Direct file streaming (`serve_music_file_direct`, lines 351-423) -/

/-- The containment test of lines 366-371:
`file_path.resolve().relative_to(music_directory.resolve())` succeeds
exactly when the resolved root's components are a leading segment of the
resolved path's components. -/
def underRoot (fs : FS) (musicDir p : String) : Bool :=
  let rootParts := fs.resolveParts musicDir
  decide ((fs.resolveParts p).take rootParts.length = rootParts)

/-- The whole-file read loop with fuel: every chunk advances `pos` by at
least one, so `file.length - pos` units of fuel always suffice. -/
def readAllChunksAux : Nat → List Nat → Nat → List Nat
  | 0, _, _ => []
  | fuel + 1, file, pos =>
    let chunk := (file.drop pos).take 8192
    if chunk = [] then []
    else chunk ++ readAllChunksAux fuel file (pos + chunk.length)

/-- The whole-file read loop of lines 409-415. -/
def readAllChunks (file : List Nat) (pos : Nat) : List Nat :=
  readAllChunksAux (file.length - pos) file pos

/-- The MIME selection of lines 377-389: `mimetypes.guess_type`, then the
extension fallback chain, then `audio/mpeg`. -/
def pickMime (fs : FS) (p : String) : String :=
  match fs.guessType p with
  | some m => m
  | none =>
    if pyLower (pySuffix p) = ".mp3" then "audio/mpeg"
    else if pyLower (pySuffix p) = ".flac" then "audio/flac"
    else if pyLower (pySuffix p) = ".m4a" then "audio/mp4"
    else if pyLower (pySuffix p) = ".ogg" then "audio/ogg"
    else "audio/mpeg"

/-- `serve_music_file_direct` after the initial `unquote` (lines
357-423): existence check (404), containment check (403), then range or
whole-file streaming. -/
def serveResolved (fs : FS) (musicDir : String) (rangeHeader : Option String) (p : String) :
    Response :=
  if fs.fexists p = false then sendError 404 ("Music file not found: " ++ p)
  else if underRoot fs musicDir p = false then sendError 403 "Access denied"
  else
    let file := fs.content p
    let mime := pickMime fs p
    match rangeHeader with
    | some rh => handle_range_request file mime rh
    | none =>
      { status := 200
        contentType := some mime
        contentLength := some (file.length : Int)
        acceptRanges := true
        body := BodyData.bytes (readAllChunks file 0) }

/-- Model of `serve_music_file_direct` (lines 351-423): percent-decode
the argument once more, then serve it. -/
def serve_music_file_direct (fs : FS) (musicDir : String) (rangeHeader : Option String)
    (file_path : String) : Response :=
  serveResolved fs musicDir rangeHeader (unquoteStr file_path)

/-! ## Remaining handlers -/

/-- Model of `serve_file` (lines 102-122): read a static asset under the
server's install directory; a missing file is 404.  (Other I/O errors
would be 500; the text-read oracle does not raise.) -/
def serve_file (fs : FS) (filename contentType : String) : Response :=
  match fs.readText (fs.staticRootDir ++ "/" ++ filename) with
  | some content =>
    { status := 200
      contentType := some contentType
      contentLength := some ((strBytes content).length : Int)
      body := BodyData.text content }
  | none => sendError 404 ("File " ++ filename ++ " not found")

/-- Model of `handle_music_list` (lines 124-142): scan with the cache
allowed and return the songs as a JSON array.  (The code sets
`Content-Length` to the byte length of the serialized JSON; JSON
serialization is external, so the header is left unmodelled here.) -/
def handle_music_list (fs : FS) (musicDir : String) (st : ServerState) :
    Response × ServerState :=
  let r := scan_music_directory fs musicDir st false
  ({ status := 200, contentType := some "application/json",
     body := BodyData.jsonSongs r.1 }, r.2)

/-- Model of `handle_music_scan` (lines 144-164): forced rescan, JSON
`success/songs/count` object. -/
def handle_music_scan (fs : FS) (musicDir : String) (st : ServerState) :
    Response × ServerState :=
  let r := scan_music_directory fs musicDir st true
  ({ status := 200, contentType := some "application/json",
     body := BodyData.jsonScanResult r.1 }, r.2)

/-- Model of `serve_music_file` (lines 425-436): resolve an id through
the cached map, rescanning once on a miss, then stream by path. -/
def serve_music_file (fs : FS) (musicDir : String) (rangeHeader : Option String)
    (st : ServerState) (music_id : String) : Response × ServerState :=
  let st1 :=
    if (dictGet st.id_to_path music_id).isSome then st
    else (scan_music_directory fs musicDir st true).2
  match dictGet st1.id_to_path music_id with
  | none => (sendError 404 "Music not found", st1)
  | some p => (serve_music_file_direct fs musicDir rangeHeader p, st1)

/-- The id-to-path resolution step of `serve_album_art` (lines 294-303):
look the id up, rescan once on a miss and retry. -/
def resolveArtPath (fs : FS) (musicDir : String) (st : ServerState) (song_id : String) :
    Option String × ServerState :=
  match dictGet st.id_to_path song_id with
  | some p => (some p, st)
  | none =>
    let st1 := (scan_music_directory fs musicDir st true).2
    (dictGet st1.id_to_path song_id, st1)

/-- Key test used both for the `'APIC:' in str(tags)` membership check
and for the `key.startswith('APIC:')` loop filter. -/
def isApicKey (k : String) : Bool := pyStartswith k "APIC:"

/-- Model of `serve_album_art` (lines 288-349): resolve the id, open the
file with mutagen, walk the `APIC:` / `pictures` / `covr` chain and
return the first picture; every no-picture outcome is 404, and only an
exception from the open is 500. -/
def serve_album_art (fs : FS) (musicDir : String) (st : ServerState) (song_id : String) :
    Response × ServerState :=
  let r := resolveArtPath fs musicDir st song_id
  match r.1 with
  | none => (sendError 404 "Song not found", r.2)
  | some p =>
    match fs.audioOf p with
    | .raisesOpen => (sendError 500 "Error retrieving album art", r.2)
    | .noFile => (sendError 404 "No album art found", r.2)
    | .opened none => (sendError 404 "No album art found", r.2)
    | .opened (some tags) =>
      if tags.truthy = false then (sendError 404 "No album art found", r.2)
      else
        let imageData : Option (List Nat × String) :=
          if tags.items.any (fun kv => isApicKey kv.1) then
            match tags.items.find? (fun kv => isApicKey kv.1) with
            | some kv => some (kv.2.data, kv.2.mime)
            | none => none
          else if tags.pictures ≠ [] then
            match tags.pictures with
            | pic :: _ => some (pic.data, pic.mime)
            | [] => none
          else if tags.covr ≠ [] then
            match tags.covr with
            | cover :: _ =>
              some (cover.data, if cover.isJpegFormat then "image/jpeg" else "image/png")
            | [] => none
          else none
        match imageData with
        | some dm =>
          if dm.1 ≠ [] then
            ({ status := 200, contentType := some dm.2,
               contentLength := some (dm.1.length : Int),
               body := BodyData.bytes dm.1 }, r.2)
          else (sendError 404 "No album art found", r.2)
        | none => (sendError 404 "No album art found", r.2)

/-! ## The GET router (`do_GET`, lines 43-90) -/

/-- A GET request after `urlparse`: the path component, the raw query
string, and the `Range` header if present. -/
structure Request where
  urlPath : String
  queryString : String
  rangeHeader : Option String

/-- Model of `pathlib`'s `/` operator on path strings: an absolute right
operand replaces the left one. -/
def pathJoin (a b : String) : String :=
  if pyStartswith b "/" then b else a ++ "/" ++ b

/-- Model of `do_GET` (lines 43-90): the static routes, the API routes,
the `/music/` passthrough, and the final 404.  For `/music/...` the code
joins the music directory with the raw path remainder
(`path[7:]`; the `unquote`d copy computed on line 83 is unused) and
delegates to `serve_music_file_direct`. -/
def do_GET (fs : FS) (musicDir : String) (st : ServerState) (req : Request) :
    Response × ServerState :=
  let path := req.urlPath
  let query := parse_qs req.queryString
  if path = "/" ∨ path = "/index.html" then (serve_file fs "index.html" "text/html", st)
  else if path = "/app.js" then (serve_file fs "app.js" "application/javascript", st)
  else if path = "/style.css" then (serve_file fs "style.css" "text/css", st)
  else if path = "/manifest.json" then (serve_file fs "manifest.json" "application/json", st)
  else if path = "/sw.js" then (serve_file fs "sw.js" "application/javascript", st)
  else if path = "/api/music" then handle_music_list fs musicDir st
  else if path = "/api/music/scan" then handle_music_scan fs musicDir st
  else if path = "/api/music/file" then
    let file_path := queryGetFirst query "path"
    if file_path ≠ "" then (serve_music_file_direct fs musicDir req.rangeHeader file_path, st)
    else (sendError 400 "No file path specified", st)
  else if pyStartswith path "/api/music/" then
    let music_id : String := ⟨lastSlashComponent path⟩
    serve_music_file fs musicDir req.rangeHeader st music_id
  else if path = "/api/album-art" then
    serve_album_art fs musicDir st (queryGetFirst query "id")
  else if pyStartswith path "/music/" then
    let relative_path : String := ⟨path.data.drop 7⟩
    let actual_path := pathJoin musicDir relative_path
    (serve_music_file_direct fs musicDir req.rangeHeader actual_path, st)
  else (sendError 404 "File not found", st)

/-! ## Concrete fixtures used by witnesses and counterexamples

Each fixture is a small concrete world (filesystem oracle, entries,
server state) on which the handlers are evaluated. -/

/-- A filesystem on which no path exists; resolution maps a path string
to the single component `[p]`. -/
def fsNothing : FS :=
  { entries := []
    fexists := fun _ => false
    resolveParts := fun p => [p]
    content := fun _ => []
    guessType := fun _ => none
    audioOf := fun _ => .noFile
    readText := fun _ => none
    staticRootDir := "/srv" }

/-- A filesystem on which every path exists (no entries); resolution maps
a path string to the single component `[p]`, so no path other than the
root itself is under the root. -/
def fsEverything : FS :=
  { entries := []
    fexists := fun _ => true
    resolveParts := fun p => [p]
    content := fun _ => []
    guessType := fun _ => none
    audioOf := fun _ => .noFile
    readText := fun _ => none
    staticRootDir := "/srv" }

/-- A supported file the tag parser cannot open (`mutagen.File → None`). -/
def entryBadMp3 : Entry :=
  { path := "/m/bad.mp3", isFile := true, resolved := "/m/bad.mp3", meta := .cantOpen }

/-- A supported file with fully readable metadata. -/
def entryGoodMp3 : Entry :=
  { path := "/m/good.mp3", isFile := true, resolved := "/m/good.mp3",
    meta := .opened (some "T") (some "A") (some "B") 10 false }

/-- An unsupported file. -/
def entryReadme : Entry :=
  { path := "/m/readme.txt", isFile := true, resolved := "/m/readme.txt", meta := .cantOpen }

/-- A supported file whose metadata extraction raises. -/
def entryRaises : Entry :=
  { path := "/m/corrupt.mp3", isFile := true, resolved := "/m/corrupt.mp3",
    meta := .raisesDuringExtract }

/-- A music directory with one unreadable and one readable mp3 plus an
unsupported text file. -/
def fsScanDrop : FS :=
  { fsEverything with entries := [entryBadMp3, entryGoodMp3, entryReadme] }

/-- A music directory with a single file whose extraction raises. -/
def fsScanRaise : FS :=
  { fsEverything with entries := [entryRaises] }

/-- A music directory with a single readable file, used for the id-map
and id-scheme witnesses. -/
def entryOneSong : Entry :=
  { path := "/m/w.mp3", isFile := true, resolved := "r",
    meta := .opened none none none 0 false }

/-- Filesystem containing only `entryOneSong`. -/
def fsOneSong : FS :=
  { fsEverything with entries := [entryOneSong] }

/-- The song record the scan of `fsOneSong` produces. -/
def songOneSong : Song :=
  { id := sha1HexOfString "r"
    title := pyStem "/m/w.mp3"
    artist := "Unknown Artist"
    album := "Unknown Album"
    duration := 0
    filepath := "/m/w.mp3"
    albumArt := none }

/-- An audio file whose tags are present and truthy but contain no
`APIC:` item, no pictures and no `covr` atom. -/
def artNoPicTags : ArtTags :=
  { truthy := true
    items := [("TIT2", { data := [], mime := "" })]
    pictures := []
    covr := [] }

/-- A filesystem whose only audio object has tags but no embedded
picture. -/
def fsNoArt : FS :=
  { fsEverything with audioOf := fun _ => .opened (some artNoPicTags) }

/-- A request for `/music/a.mp3`. -/
def reqMusicRoute : Request :=
  { urlPath := "/music/a.mp3", queryString := "", rangeHeader := none }

/-! ## Supporting lemmas -/

/-- Sanity check of the SHA-1 model against the FIPS 180 test vector. -/
theorem sha1HexOfString_abc :
    sha1HexOfString "abc" = "a9993e364706816aba3e25717850c26c9cd0d89d" := by decide

/-- The fuelled read loop writes exactly the requested slice as long as
the fuel covers `remaining`. -/
theorem streamLoopAux_eq (file : List Nat) :
    ∀ fuel remaining pos, remaining ≤ fuel →
      streamLoopAux fuel file pos remaining = (file.drop pos).take remaining := by
  intro fuel
  induction fuel with
  | zero =>
    intro remaining pos h
    have h0 : remaining = 0 := by omega
    subst h0
    simp [streamLoopAux]
  | succ fuel ih =>
    intro remaining pos h
    simp only [streamLoopAux]
    by_cases h0 : remaining = 0
    · simp [h0]
    · rw [if_neg h0]
      by_cases hc : (file.drop pos).take (min 8192 remaining) = []
      · rw [if_pos hc]
        rcases List.take_eq_nil_iff.mp hc with hx | hx
        · exact absurd hx (by omega)
        · simp [hx]
      · rw [if_neg hc]
        have hpos : 0 < ((file.drop pos).take (min 8192 remaining)).length :=
          List.length_pos.mpr hc
        have hlen : ((file.drop pos).take (min 8192 remaining)).length
            = min (min 8192 remaining) (file.length - pos) := by
          simp [List.length_take, List.length_drop]
        rw [ih (remaining - ((file.drop pos).take (min 8192 remaining)).length) _ (by omega)]
        have h1 : (file.drop pos).take (min 8192 remaining)
            = (file.drop pos).take ((file.drop pos).take (min 8192 remaining)).length := by
          rw [List.take_eq_take]
          simp only [List.length_take, List.length_drop]
          omega
        have h2 : file.drop (pos + ((file.drop pos).take (min 8192 remaining)).length)
            = (file.drop pos).drop ((file.drop pos).take (min 8192 remaining)).length := by
          rw [List.drop_drop]
        rw [h2]
        conv_rhs =>
          rw [show remaining = ((file.drop pos).take (min 8192 remaining)).length
                + (remaining - ((file.drop pos).take (min 8192 remaining)).length) by omega,
             List.take_add]
        rw [← h1]

/-- The chunked range-read loop writes exactly the requested slice:
seeking to `pos` and reading up to `remaining` bytes in 8 KiB chunks
yields `(file.drop pos).take remaining`. -/
theorem streamLoop_eq (file : List Nat) (pos remaining : Nat) :
    streamLoop file pos remaining = (file.drop pos).take remaining :=
  streamLoopAux_eq file remaining remaining pos le_rfl

/-- The fuelled whole-file loop reads to EOF as long as the fuel covers
the remaining length. -/
theorem readAllChunksAux_eq (file : List Nat) :
    ∀ fuel pos, file.length - pos ≤ fuel → readAllChunksAux fuel file pos = file.drop pos := by
  intro fuel
  induction fuel with
  | zero =>
    intro pos hp
    have hd : file.drop pos = [] := List.drop_eq_nil_of_le (by omega)
    simp [readAllChunksAux, hd]
  | succ fuel ih =>
    intro pos hp
    simp only [readAllChunksAux]
    by_cases hc : (file.drop pos).take 8192 = []
    · rw [if_pos hc]
      rcases List.take_eq_nil_iff.mp hc with h | h
      · omega
      · simp [h]
    · rw [if_neg hc]
      have hpos : 0 < ((file.drop pos).take 8192).length := List.length_pos.mpr hc
      have hlen : ((file.drop pos).take 8192).length = min 8192 (file.length - pos) := by
        simp [List.length_take, List.length_drop]
      rw [ih (pos + ((file.drop pos).take 8192).length) (by omega)]
      have h1 : (file.drop pos).take 8192
          = (file.drop pos).take ((file.drop pos).take 8192).length := by
        rw [List.take_eq_take]
        simp only [List.length_take, List.length_drop]
        omega
      have h2 : file.drop (pos + ((file.drop pos).take 8192).length)
          = (file.drop pos).drop ((file.drop pos).take 8192).length := by
        rw [List.drop_drop]
      rw [h2]
      conv_rhs =>
        rw [← List.take_append_drop ((file.drop pos).take 8192).length (file.drop pos)]
      rw [← h1]

/-- The whole-file read loop returns the file from the seek position on. -/
theorem readAllChunks_eq (file : List Nat) (pos : Nat) :
    readAllChunks file pos = file.drop pos :=
  readAllChunksAux_eq file (file.length - pos) pos le_rfl

/-- A key with a binding is among a dict's keys. -/
theorem lookup_isSome_mem (a : String) :
    ∀ d : List (String × String), (d.lookup a).isSome → a ∈ d.map Prod.fst := by
  intro d h
  induction d with
  | nil => simp [List.lookup] at h
  | cons kv rest ih =>
    obtain ⟨k1, v1⟩ := kv
    by_cases hk : a == k1
    · rw [List.map_cons]
      exact List.mem_cons.mpr (Or.inl (eq_of_beq hk))
    · simp only [List.lookup, hk] at h
      rw [List.map_cons]
      exact List.mem_cons.mpr (Or.inr (ih h))

/-- Inserting into a dict adds (at most) the inserted key. -/
theorem mem_keys_dictInsert (d : List (String × String)) (a v k : String) :
    k ∈ (dictInsert d a v).map Prod.fst ↔ k = a ∨ k ∈ d.map Prod.fst := by
  unfold dictInsert
  by_cases h : (d.lookup a).isSome
  · rw [if_pos h]
    have hkeys : (d.map (fun kv => if kv.1 = a then (a, v) else kv)).map Prod.fst
        = d.map Prod.fst := by
      rw [List.map_map]
      apply List.map_congr_left
      intro kv _
      by_cases hkv : kv.1 = a
      · simp [hkv]
      · simp [hkv]
    rw [hkeys]
    constructor
    · exact Or.inr
    · rintro (rfl | hm)
      · exact lookup_isSome_mem _ d h
      · exact hm
  · rw [if_neg h]
    simp [List.map_append]
    tauto

/-- The song list a scan accumulates is the initial accumulator followed
by the songs discovered from the entries, independently of the id map. -/
theorem scanFold_fst :
    ∀ (es : List Entry) (songs : List Song) (m : List (String × String)),
      (scanFold es songs m).1 = songs ++ scanSongs es
  | [], songs, m => by simp [scanFold, scanSongs]
  | e :: rest, songs, m => by
    by_cases hs : isSupported e = true
    · cases hme : extract_metadata e with
      | ok o =>
        cases o with
        | some s =>
          simp only [scanFold, scanSongs, hs, if_true, hme]
          rw [scanFold_fst rest]
          simp
        | none =>
          simp only [scanFold, scanSongs, hs, if_true, hme]
          exact scanFold_fst rest songs m
      | exc =>
        simp only [scanFold, scanSongs, hs, if_true, hme]
        rw [scanFold_fst rest]
        simp
    · simp only [scanFold, scanSongs, hs, if_false, Bool.false_eq_true]
      exact scanFold_fst rest songs m

/-- Characterisation of the id map after a scan walk: its keys are the
prior keys plus the ids of the discovered songs. -/
theorem mem_keys_scanFold :
    ∀ (es : List Entry) (songs : List Song) (m : List (String × String)) (k : String),
      k ∈ (scanFold es songs m).2.map Prod.fst
        ↔ k ∈ m.map Prod.fst ∨ k ∈ (scanSongs es).map Song.id
  | [], songs, m, k => by simp [scanFold, scanSongs]
  | e :: rest, songs, m, k => by
    by_cases hs : isSupported e = true
    · cases hme : extract_metadata e with
      | ok o =>
        cases o with
        | some s =>
          simp only [scanFold, scanSongs, hs, if_true, hme]
          rw [mem_keys_scanFold rest]
          rw [mem_keys_dictInsert]
          simp only [List.map_cons, List.mem_cons]
          tauto
        | none =>
          simp only [scanFold, scanSongs, hs, if_true, hme]
          exact mem_keys_scanFold rest songs m k
      | exc =>
        simp only [scanFold, scanSongs, hs, if_true, hme]
        rw [mem_keys_scanFold rest]
        rw [mem_keys_dictInsert]
        simp only [List.map_cons, List.mem_cons]
        tauto
    · simp only [scanFold, scanSongs, hs, if_false, Bool.false_eq_true]
      exact mem_keys_scanFold rest songs m k

/-- Every discovered song comes from some entry, through the normal
branch or the (dead) fallback branch. -/
theorem mem_scanSongs :
    ∀ (es : List Entry) (s : Song), s ∈ scanSongs es →
      ∃ e, e ∈ es ∧ isSupported e = true ∧
        (extract_metadata e = .ok (some s)
          ∨ (extract_metadata e = .exc ∧ s = scanFallbackSong e))
  | [], s => by simp [scanSongs]
  | e :: rest, s => by
    intro hmem
    by_cases hs : isSupported e = true
    · cases hme : extract_metadata e with
      | ok o =>
        cases o with
        | some s0 =>
          simp only [scanSongs, hs, if_true, hme] at hmem
          rcases List.mem_cons.mp hmem with rfl | hmem
          · exact ⟨e, List.mem_cons_self e rest, hs, Or.inl hme⟩
          · obtain ⟨e', he', hsup, hcase⟩ := mem_scanSongs rest s hmem
            exact ⟨e', List.mem_cons_of_mem e he', hsup, hcase⟩
        | none =>
          simp only [scanSongs, hs, if_true, hme] at hmem
          obtain ⟨e', he', hsup, hcase⟩ := mem_scanSongs rest s hmem
          exact ⟨e', List.mem_cons_of_mem e he', hsup, hcase⟩
      | exc =>
        simp only [scanSongs, hs, if_true, hme] at hmem
        rcases List.mem_cons.mp hmem with rfl | hmem
        · exact ⟨e, List.mem_cons_self e rest, hs, Or.inr ⟨hme, rfl⟩⟩
        · obtain ⟨e', he', hsup, hcase⟩ := mem_scanSongs rest s hmem
          exact ⟨e', List.mem_cons_of_mem e he', hsup, hcase⟩
    · simp only [scanSongs, hs, if_false, Bool.false_eq_true] at hmem
      obtain ⟨e', he', hsup, hcase⟩ := mem_scanSongs rest s hmem
      exact ⟨e', List.mem_cons_of_mem e he', hsup, hcase⟩

/-- A song the normal branch returns carries the SHA-1 id of the entry's
resolved path. -/
theorem extract_metadata_id (e : Entry) (s : Song)
    (h : extract_metadata e = .ok (some s)) : s.id = sha1HexOfString e.resolved := by
  cases hm : e.meta with
  | cantOpen => simp [extract_metadata, hm] at h
  | raisesDuringExtract => simp [extract_metadata, hm] at h
  | opened t a al d art =>
    simp only [extract_metadata, hm, PyResult.ok.injEq, Option.some.injEq] at h
    rw [← h]

/-- `extract_metadata` catches every exception internally and returns
normally; the fallback branch of the scan loop is unreachable. -/
theorem extract_metadata_never_raises (e : Entry) :
    ∃ o, extract_metadata e = .ok o := by
  cases hm : e.meta <;> simp [extract_metadata, hm]

/-- When the cache guard does not fire (forced, or no cache yet) and the
music directory exists, `scan_music_directory` runs the walk and installs
its result. -/
theorem scan_music_directory_run (fs : FS) (musicDir : String) (st : ServerState)
    (force : Bool) (hrun : force = true ∨ st.songs_cache = none)
    (hex : fs.fexists musicDir = true) :
    scan_music_directory fs musicDir st force
      = ((scanFold fs.entries [] st.id_to_path).1,
         { songs_cache := some (scanFold fs.entries [] st.id_to_path).1,
           id_to_path := (scanFold fs.entries [] st.id_to_path).2 }) := by
  have hguard : ¬(force = false ∧ st.songs_cache.isSome = true) := by
    rcases hrun with rfl | hc
    · rintro ⟨h, -⟩
      simp at h
    · rintro ⟨-, h⟩
      rw [hc] at h
      simp at h
  unfold scan_music_directory
  rw [if_neg hguard, if_neg (by simp [hex])]

/-- When the cache guard does not fire and the music directory is
missing, the scan installs an empty cache and resets the id map. -/
theorem scan_music_directory_missing (fs : FS) (musicDir : String) (st : ServerState)
    (force : Bool) (hrun : force = true ∨ st.songs_cache = none)
    (hex : fs.fexists musicDir = false) :
    scan_music_directory fs musicDir st force
      = ([], { songs_cache := some [], id_to_path := [] }) := by
  have hguard : ¬(force = false ∧ st.songs_cache.isSome = true) := by
    rcases hrun with rfl | hc
    · rintro ⟨h, -⟩
      simp at h
    · rintro ⟨-, h⟩
      rw [hc] at h
      simp at h
  unfold scan_music_directory
  rw [if_neg hguard, if_pos hex]

/-- Percent decoding never lengthens a string. -/
theorem unquoteChars_length_le (l : List Char) : (unquoteChars l).length ≤ l.length := by
  induction l using unquoteChars.induct with
  | case1 => simp [unquoteChars]
  | case2 a b rest hi lo hb ha ih =>
    rw [unquoteChars.eq_2]
    simp only [ha, hb]
    simp only [List.length_cons]
    omega
  | case3 a b rest hne ih =>
    rw [unquoteChars.eq_2]
    cases ha : hexVal a with
    | some hi =>
      cases hb : hexVal b with
      | some lo => exact (hne hi lo ha hb).elim
      | none =>
        simp only [ha, hb, List.length_cons]
        simp only [List.length_cons] at ih
        omega
    | none =>
      simp only [ha, List.length_cons]
      simp only [List.length_cons] at ih
      omega
  | case4 c rest hne ih =>
    rw [unquoteChars.eq_3 c rest hne]
    simp only [List.length_cons]
    omega

/-- A string containing a valid `%xx` escape strictly shrinks under
percent decoding. -/
theorem unquoteChars_length_lt (l : List Char) (h : hasEscape l = true) :
    (unquoteChars l).length < l.length := by
  induction l using unquoteChars.induct with
  | case1 => simp [hasEscape] at h
  | case2 a b rest hi lo hb ha ih =>
    rw [unquoteChars.eq_2]
    simp only [ha, hb]
    have := unquoteChars_length_le rest
    simp only [List.length_cons]
    omega
  | case3 a b rest hne ih =>
    have h' : hasEscape (a :: b :: rest) = true := by
      rw [hasEscape.eq_1, Bool.or_eq_true] at h
      rcases h with h1 | h2
      · rw [Bool.and_eq_true] at h1
        obtain ⟨ha2, hb2⟩ := h1
        obtain ⟨hi, ha3⟩ := Option.isSome_iff_exists.mp ha2
        obtain ⟨lo, hb3⟩ := Option.isSome_iff_exists.mp hb2
        exact (hne hi lo ha3 hb3).elim
      · exact h2
    rw [unquoteChars.eq_2]
    cases ha : hexVal a with
    | some hi =>
      cases hb : hexVal b with
      | some lo => exact (hne hi lo ha hb).elim
      | none =>
        simp only [ha, hb, List.length_cons]
        have := ih h'
        simp only [List.length_cons] at this
        omega
    | none =>
      simp only [ha, List.length_cons]
      have := ih h'
      simp only [List.length_cons] at this
      omega
  | case4 c rest hne ih =>
    have h' : hasEscape rest = true := by rwa [hasEscape.eq_2 c rest hne] at h
    rw [unquoteChars.eq_3 c rest hne]
    simp only [List.length_cons]
    exact Nat.succ_lt_succ (ih h')

/-- Percent decoding a nonempty string gives a nonempty string. -/
theorem unquoteChars_ne_nil (l : List Char) (h : l ≠ []) : unquoteChars l ≠ [] := by
  induction l using unquoteChars.induct with
  | case1 => exact absurd rfl h
  | case2 a b rest hi lo hb ha ih =>
    rw [unquoteChars.eq_2]
    simp [ha, hb]
  | case3 a b rest hne ih =>
    rw [unquoteChars.eq_2]
    cases ha : hexVal a with
    | some hi =>
      cases hb : hexVal b with
      | some lo => exact (hne hi lo ha hb).elim
      | none => simp [ha, hb]
    | none => simp [ha]
  | case4 c rest hne ih =>
    rw [unquoteChars.eq_3 c rest hne]
    simp

/-- `str.split(sep)` on a string not containing the separator. -/
theorem splitOnChar_not_mem (sep : Char) :
    ∀ l : List Char, sep ∉ l → splitOnChar sep l = [l] := by
  intro l h
  induction l with
  | nil => simp [splitOnChar]
  | cons c rest ih =>
    have hc : ¬c = sep := fun e => h (e ▸ List.mem_cons_self c rest)
    have hr : sep ∉ rest := fun hm => h (List.mem_cons_of_mem c hm)
    simp only [splitOnChar]
    rw [ih hr]
    simp [hc]

/-- `parse_qs` of a single `path=<raw>` pair whose raw value is nonempty
and free of `&`: one binding, with the value `unquote_plus`-decoded. -/
theorem parse_qs_single_path (raw : String) (hamp : '&' ∉ raw.data) (hne : raw ≠ "") :
    parse_qs ("path=" ++ raw) = [("path", unquotePlusStr raw)] := by
  have hdata : ("path=" ++ raw).data = 'p' :: 'a' :: 't' :: 'h' :: '=' :: raw.data := by
    rw [String.data_append]
    rfl
  have hnomem : '&' ∉ ('p' :: 'a' :: 't' :: 'h' :: '=' :: raw.data) := by
    intro hm
    simp only [List.mem_cons] at hm
    rcases hm with h | h | h | h | h | h
    · exact absurd h (by decide)
    · exact absurd h (by decide)
    · exact absurd h (by decide)
    · exact absurd h (by decide)
    · exact absurd h (by decide)
    · exact hamp h
  have hdne : raw.data ≠ [] := by
    intro h0
    apply hne
    cases raw
    simp_all
  unfold parse_qs
  rw [hdata, splitOnChar_not_mem '&' _ hnomem]
  have hsplit : splitFirstEq ('p' :: 'a' :: 't' :: 'h' :: '=' :: raw.data)
      = some (['p', 'a', 't', 'h'], raw.data) := by
    simp [splitFirstEq]
  simp only [List.filterMap, parsePair, hsplit]
  simp [hdne, unquotePlusStr]
  rfl

/-! ## Claim C2 — range clamping and the streamed span -/

/-- C2 (amended): for every range request whose header parses to numeric
bounds, the streamer clamps `start` from below to 0 and `end` from above
to `S - 1` (it does not clamp `start` from above, nor `end` from below),
then responds 206 with `Content-Length = end - start + 1` and
`Content-Range: bytes start-end/S`; whenever the clamped `start ≤ end`
it streams exactly the byte span `[start, end]` (of positive length
`end - start + 1`), and when the clamped bounds are inverted it streams
nothing while still answering 206 with a nonpositive `Content-Length`. -/
theorem claim_c2_range_clamp_and_span (file : List Nat) (mime rangeHeader : String)
    (s e : Int) (hparse : parseRangeBounds rangeHeader file.length = some (s, e)) :
    (handle_range_request file mime rangeHeader).status = 206 ∧
    (handle_range_request file mime rangeHeader).contentLength
      = some (min ((file.length : Int) - 1) e - max 0 s + 1) ∧
    (handle_range_request file mime rangeHeader).contentRange
      = some (max 0 s, min ((file.length : Int) - 1) e, (file.length : Int)) ∧
    (handle_range_request file mime rangeHeader).body
      = BodyData.bytes ((file.drop (max 0 s).toNat).take
          (min ((file.length : Int) - 1) e - max 0 s + 1).toNat) ∧
    (max 0 s ≤ min ((file.length : Int) - 1) e →
      ((file.drop (max 0 s).toNat).take
          (min ((file.length : Int) - 1) e - max 0 s + 1).toNat).length
        = (min ((file.length : Int) - 1) e - max 0 s + 1).toNat
      ∧ 0 < min ((file.length : Int) - 1) e - max 0 s + 1) ∧
    (min ((file.length : Int) - 1) e < max 0 s →
      (file.drop (max 0 s).toNat).take
          (min ((file.length : Int) - 1) e - max 0 s + 1).toNat = []) := by
  have hr : handle_range_request file mime rangeHeader
      = { status := 206
          contentType := some mime
          contentLength := some (min ((file.length : Int) - 1) e - max 0 s + 1)
          contentRange := some (max 0 s, min ((file.length : Int) - 1) e, (file.length : Int))
          acceptRanges := true
          body := BodyData.bytes (streamLoop file (max 0 s).toNat
            (min ((file.length : Int) - 1) e - max 0 s + 1).toNat) } := by
    unfold handle_range_request
    rw [hparse]
  refine ⟨by rw [hr], by rw [hr], by rw [hr], ?_, ?_, ?_⟩
  · calc (handle_range_request file mime rangeHeader).body
        = BodyData.bytes (streamLoop file (max 0 s).toNat
            (min ((file.length : Int) - 1) e - max 0 s + 1).toNat) := by rw [hr]
      _ = BodyData.bytes ((file.drop (max 0 s).toNat).take
            (min ((file.length : Int) - 1) e - max 0 s + 1).toNat) := by rw [streamLoop_eq]
  · intro hle
    constructor
    · simp only [List.length_take, List.length_drop]
      omega
    · omega
  · intro hlt
    have h0 : (min ((file.length : Int) - 1) e - max 0 s + 1).toNat = 0 := by omega
    rw [h0]
    simp

/-- C2 counterexample: on a 3-byte file, `bytes=5-` parses to requested
start 5 with end defaulting to 2.  The claim's clamping (start into
`[0, 2]`, end into `[start, 2]`) would give start = end = 2 and
`Content-Length = 2 - 2 + 1 = 1` with a one-byte body; the code instead
leaves start at 5, producing `Content-Length = -2` and an empty body. -/
theorem claim_c2_counterexample :
    (handle_range_request [10, 20, 30] "audio/mpeg" "bytes=5-").status = 206 ∧
    (handle_range_request [10, 20, 30] "audio/mpeg" "bytes=5-").contentLength = some (-2) ∧
    (handle_range_request [10, 20, 30] "audio/mpeg" "bytes=5-").body = BodyData.bytes [] ∧
    ((-2 : Int) ≠ 2 - 2 + 1) := by
  decide

/-- Witness for C2: `bytes=1-2` on a 4-byte file streams exactly bytes 1
and 2 with status 206. -/
theorem claim_c2_witness :
    (handle_range_request [5, 6, 7, 8] "audio/mpeg" "bytes=1-2").status = 206 ∧
    (handle_range_request [5, 6, 7, 8] "audio/mpeg" "bytes=1-2").contentLength = some 2 ∧
    (handle_range_request [5, 6, 7, 8] "audio/mpeg" "bytes=1-2").body
      = BodyData.bytes [6, 7] := by
  have h := claim_c2_range_clamp_and_span [5, 6, 7, 8] "audio/mpeg" "bytes=1-2" 1 2 (by decide)
  refine ⟨h.1, ?_, ?_⟩
  · rw [h.2.1]
    decide
  · rw [h.2.2.2.1]
    decide

/-! ## Claim C3 — no 416 for unsatisfiable ranges -/

/-- C3 (the specified behavior the code does not implement): a range that
cannot be clamped to a valid nonempty span is supposed to get
`416 Range Not Satisfiable`.  The code instead answers 206 with
`Content-Length = -2` for `bytes=3-` on a 1-byte file, and 500 for
non-numeric bounds; neither response is 416. -/
theorem claim_c3_no_416_code_bug :
    (handle_range_request [7] "audio/mpeg" "bytes=3-").status = 206 ∧
    (handle_range_request [7] "audio/mpeg" "bytes=3-").contentLength = some (-2) ∧
    (handle_range_request [7] "audio/mpeg" "bytes=3-").body = BodyData.bytes [] ∧
    (handle_range_request [7] "audio/mpeg" "bytes=a-0").status = 500 ∧
    (handle_range_request [7] "audio/mpeg" "bytes=3-").status ≠ 416 ∧
    (handle_range_request [7] "audio/mpeg" "bytes=a-0").status ≠ 416 := by
  decide

/-! ## Claim C1 — containment check and the 404/403 order -/

/-- C1 (amended): when the canonical form of the (decoded) requested path
is not a descendant of the music root's canonical form,
`serve_music_file_direct` never streams file bytes; it responds
403 Forbidden when a file exists at that path, but 404 Not Found when it
does not, because the existence check (line 360) runs before the
containment check (line 367). -/
theorem claim_c1_outside_root (fs : FS) (musicDir : String) (rangeHeader : Option String)
    (p : String) (hout : underRoot fs musicDir (unquoteStr p) = false) :
    (fs.fexists (unquoteStr p) = true →
      (serve_music_file_direct fs musicDir rangeHeader p).status = 403) ∧
    (fs.fexists (unquoteStr p) = false →
      (serve_music_file_direct fs musicDir rangeHeader p).status = 404) ∧
    ∀ bs, (serve_music_file_direct fs musicDir rangeHeader p).body ≠ BodyData.bytes bs := by
  refine ⟨?_, ?_, ?_⟩
  · intro hex
    simp [serve_music_file_direct, serveResolved, hex, hout, sendError]
  · intro hex
    simp [serve_music_file_direct, serveResolved, hex, sendError]
  · intro bs
    by_cases hex : fs.fexists (unquoteStr p) = true
    · simp [serve_music_file_direct, serveResolved, hex, hout, sendError]
    · have hex' : fs.fexists (unquoteStr p) = false := by
        simpa using hex
      simp [serve_music_file_direct, serveResolved, hex', sendError]

/-- C1 counterexample: on a filesystem where `/etc/passwd` does not
exist, a request for it (outside the root `/m`) is answered 404, not the
403 the claim requires "regardless of whether a file actually exists". -/
theorem claim_c1_counterexample :
    underRoot fsNothing "/m" (unquoteStr "/etc/passwd") = false ∧
    fsNothing.fexists (unquoteStr "/etc/passwd") = false ∧
    (serve_music_file_direct fsNothing "/m" none "/etc/passwd").status = 404 ∧
    (serve_music_file_direct fsNothing "/m" none "/etc/passwd").status ≠ 403 := by
  decide

/-- Witness for C1: when the outside-root file does exist, the response
is 403. -/
theorem claim_c1_witness :
    (serve_music_file_direct fsEverything "/m" none "/x").status = 403 ∧
    ((serve_music_file_direct fsEverything "/m" none "/x").body
      ≠ BodyData.bytes (fsEverything.content "/x")) := by
  have h := claim_c1_outside_root fsEverything "/m" none "/x" (by decide)
  exact ⟨h.1 (by decide), h.2.2 _⟩

/-! ## Claim C9 — the `/music/` passthrough route -/

/-- C9: every GET whose URL path begins with `/music/` is handled by
joining the music root with the raw path remainder and delegating to
`serve_music_file_direct` — the same code path (hence the same
containment check, range handling and 404/403 behavior) as the
documented streaming endpoints, leaving the server state untouched. -/
theorem claim_c9_music_passthrough (fs : FS) (musicDir : String) (st : ServerState)
    (req : Request) (hp : pyStartswith req.urlPath "/music/" = true) :
    do_GET fs musicDir st req
      = (serve_music_file_direct fs musicDir req.rangeHeader
          (pathJoin musicDir ⟨req.urlPath.data.drop 7⟩), st) := by
  have htake : req.urlPath.data.take 7 = "/music/".data := of_decide_eq_true hp
  have h1 : ¬(req.urlPath = "/" ∨ req.urlPath = "/index.html") := by
    rintro (h | h) <;> (rw [h] at htake; exact absurd htake (by decide))
  have h2 : req.urlPath ≠ "/app.js" := fun h => absurd (h ▸ htake) (by decide)
  have h3 : req.urlPath ≠ "/style.css" := fun h => absurd (h ▸ htake) (by decide)
  have h4 : req.urlPath ≠ "/manifest.json" := fun h => absurd (h ▸ htake) (by decide)
  have h5 : req.urlPath ≠ "/sw.js" := fun h => absurd (h ▸ htake) (by decide)
  have h6 : req.urlPath ≠ "/api/music" := fun h => absurd (h ▸ htake) (by decide)
  have h7 : req.urlPath ≠ "/api/music/scan" := fun h => absurd (h ▸ htake) (by decide)
  have h8 : req.urlPath ≠ "/api/music/file" := fun h => absurd (h ▸ htake) (by decide)
  have h9 : ¬pyStartswith req.urlPath "/api/music/" = true := by
    intro h'
    have ht2 : req.urlPath.data.take 11 = "/api/music/".data := of_decide_eq_true h'
    have h3' : req.urlPath.data.take 7 = ("/api/music/".data).take 7 := by
      rw [← ht2, List.take_take]
      norm_num
    rw [htake] at h3'
    exact absurd h3' (by decide)
  have h10 : req.urlPath ≠ "/api/album-art" := fun h => absurd (h ▸ htake) (by decide)
  simp only [do_GET]
  rw [if_neg h1, if_neg h2, if_neg h3, if_neg h4, if_neg h5, if_neg h6, if_neg h7,
      if_neg h8, if_neg h9, if_neg h10, if_pos hp]

/-- Witness for C9: `/music/a.mp3` is delegated to
`serve_music_file_direct` on the joined path `/m/a.mp3`. -/
theorem claim_c9_witness :
    do_GET fsNothing "/m" { songs_cache := none, id_to_path := [] } reqMusicRoute
      = (serve_music_file_direct fsNothing "/m" none "/m/a.mp3",
         { songs_cache := none, id_to_path := [] }) := by
  have h := claim_c9_music_passthrough fsNothing "/m"
    { songs_cache := none, id_to_path := [] } reqMusicRoute (by decide)
  rw [h]
  have hj : pathJoin "/m" (⟨reqMusicRoute.urlPath.data.drop 7⟩ : String) = "/m/a.mp3" := by
    decide
  rw [hj]
  rfl

/-! ## Claim C10 — double percent-decoding on `/api/music/file` -/

/-- C10: the `path` query value reaches the filesystem decoded twice —
once by `parse_qs` in `do_GET` and once by the `unquote` inside
`serve_music_file_direct` — so (i) for every request the served path is
`unquote(unquote_plus(raw))`, (ii) any value still containing a valid
`%xx` sequence after the first decoding denotes a different (again
decoded) path, and (iii) `%2520` in the request resolves to a single
space. -/
theorem claim_c10_double_decode :
    (∀ (fs : FS) (musicDir : String) (st : ServerState) (rangeHeader : Option String)
        (raw : String), '&' ∉ raw.data → raw ≠ "" →
        do_GET fs musicDir st
            { urlPath := "/api/music/file", queryString := "path=" ++ raw,
              rangeHeader := rangeHeader }
          = (serveResolved fs musicDir rangeHeader (unquoteStr (unquotePlusStr raw)), st)) ∧
    (∀ s : String, hasEscape s.data = true → unquoteStr s ≠ s) ∧
    unquoteStr (unquotePlusStr "%2520") = " " := by
  refine ⟨?_, ?_, by decide⟩
  · intro fs musicDir st rh raw hamp hne
    have hu : unquotePlusStr raw ≠ "" := by
      intro h0
      have hdat : unquoteChars (plusToSpace raw.data) = [] := congrArg String.data h0
      have hplus : plusToSpace raw.data ≠ [] := by
        intro hp0
        apply hne
        have hraw : raw.data.length = 0 := by
          have := congrArg List.length hp0
          simpa [plusToSpace] using this
        cases raw
        simp_all
      exact unquoteChars_ne_nil _ hplus hdat
    show (if queryGetFirst (parse_qs ("path=" ++ raw)) "path" ≠ "" then
            (serve_music_file_direct fs musicDir rh
              (queryGetFirst (parse_qs ("path=" ++ raw)) "path"), st)
          else (sendError 400 "No file path specified", st))
        = (serveResolved fs musicDir rh (unquoteStr (unquotePlusStr raw)), st)
    rw [parse_qs_single_path raw hamp hne]
    have hq : queryGetFirst [("path", unquotePlusStr raw)] "path" = unquotePlusStr raw := rfl
    rw [hq, if_pos hu]
    rfl
  · intro s h heq
    have hlen := unquoteChars_length_lt s.data h
    have hdat : unquoteChars s.data = s.data := congrArg String.data heq
    rw [hdat] at hlen
    exact lt_irrefl _ hlen

/-- Witness for C10: requesting `path=%2520` makes the server stream the
file whose name is a single space, and `%41` decodes away under the
second unquote. -/
theorem claim_c10_witness :
    do_GET fsNothing "/m" { songs_cache := none, id_to_path := [] }
        { urlPath := "/api/music/file", queryString := "path=" ++ "%2520",
          rangeHeader := none }
      = (serveResolved fsNothing "/m" none " ", { songs_cache := none, id_to_path := [] }) ∧
    unquoteStr "%41" ≠ "%41" := by
  constructor
  · have h := claim_c10_double_decode.1 fsNothing "/m"
      { songs_cache := none, id_to_path := [] } none "%2520" (by decide) (by decide)
    rw [h, claim_c10_double_decode.2.2]
  · exact claim_c10_double_decode.2.1 "%41" (by decide)

/-! ## Claim C4 — files with unextractable metadata are dropped -/

/-- C4 fails on the code: of the two supported files in `fsScanDrop`
(one unreadable by the parser, one readable), the scan indexes only the
readable one.  `extract_metadata` returns `None` both when
`mutagen.File` cannot open the container and when extraction raises, and
the loop's `if song_info:` then appends nothing, so the file is dropped
— the claim's "exactly N records" does not hold. -/
theorem claim_c4_supported_file_dropped :
    (fsScanDrop.entries.filter (fun e => isSupported e)).length = 2 ∧
    (scan_music_directory fsScanDrop "/m"
        { songs_cache := none, id_to_path := [] } true).1.length = 1 ∧
    (scan_music_directory fsScanDrop "/m"
        { songs_cache := none, id_to_path := [] } true).1.map Song.filepath
      = ["/m/good.mp3"] := by
  decide

/-! ## Claim C7 — the fallback record is never inserted -/

/-- C7 fails on the code: `extract_metadata` catches every exception and
returns `None`, so the scan loop's `except` branch — which would insert
exactly the claimed fallback record (stem title, Unknown Artist/Album,
duration 0, no artwork, SHA-1 id) — can never fire; a file whose
extraction raises is simply dropped, as the scan of `fsScanRaise`
(one raising file) shows. -/
theorem claim_c7_fallback_never_inserted :
    (∀ e : Entry, ∃ o, extract_metadata e = PyResult.ok o) ∧
    (scan_music_directory fsScanRaise "/m"
        { songs_cache := none, id_to_path := [] } true).1 = [] ∧
    scanFallbackSong entryRaises
      = { id := sha1HexOfString "/m/corrupt.mp3"
          title := "corrupt"
          artist := "Unknown Artist"
          album := "Unknown Album"
          duration := 0
          filepath := "/m/corrupt.mp3"
          albumArt := none } := by
  refine ⟨extract_metadata_never_raises, by decide, by decide⟩

/-! ## Claim C5 — id-map keys versus installed song ids -/

/-- C5 (amended): after a scan actually runs (forced, or first build),
every id of the installed song sequence is a key of the installed
id-to-path map, and the installed keys are exactly the prior keys plus
the new ids — the map is extended, never reset, so it can retain stale
ids of earlier scans; the key set equals the sequence's id set when the
prior map is empty, and the missing-directory case resets both to
empty. -/
theorem claim_c5_map_keys (fs : FS) (musicDir : String) (st : ServerState)
    (force : Bool) (hrun : force = true ∨ st.songs_cache = none) :
    (∀ s ∈ (scan_music_directory fs musicDir st force).1,
        s.id ∈ (scan_music_directory fs musicDir st force).2.id_to_path.map Prod.fst) ∧
    (fs.fexists musicDir = true →
      ∀ k, k ∈ (scan_music_directory fs musicDir st force).2.id_to_path.map Prod.fst
        ↔ (k ∈ st.id_to_path.map Prod.fst
            ∨ k ∈ (scan_music_directory fs musicDir st force).1.map Song.id)) ∧
    (fs.fexists musicDir = false →
      (scan_music_directory fs musicDir st force).1 = []
        ∧ (scan_music_directory fs musicDir st force).2.id_to_path = []) := by
  by_cases hex : fs.fexists musicDir = true
  · have hred := scan_music_directory_run fs musicDir st force hrun hex
    refine ⟨?_, ?_, ?_⟩
    · intro s hs
      rw [hred] at hs ⊢
      show s.id ∈ (scanFold fs.entries [] st.id_to_path).2.map Prod.fst
      rw [mem_keys_scanFold]
      right
      rw [scanFold_fst] at hs
      simp only [List.nil_append] at hs
      exact List.mem_map_of_mem Song.id hs
    · intro _ k
      rw [hred]
      show k ∈ (scanFold fs.entries [] st.id_to_path).2.map Prod.fst ↔ _
      rw [mem_keys_scanFold, scanFold_fst]
      simp
    · intro hx
      rw [hx] at hex
      simp at hex
  · have hex' : fs.fexists musicDir = false := by
      simpa using hex
    have hred := scan_music_directory_missing fs musicDir st force hrun hex'
    refine ⟨?_, ?_, ?_⟩
    · intro s hs
      rw [hred] at hs
      simp at hs
    · intro hx
      simp [hex'] at hx
    · intro _
      rw [hred]
      exact ⟨rfl, rfl⟩

/-- C5 counterexample: a forced rescan of an existing but now-empty music
directory installs an empty song list yet keeps the stale id in the map,
so the installed key set `{deadbeef}` is not the id set `∅` of the
installed sequence. -/
theorem claim_c5_counterexample :
    (scan_music_directory fsEverything "/m"
        { songs_cache := some [], id_to_path := [("deadbeef", "/m/gone.mp3")] } true).1 = [] ∧
    (scan_music_directory fsEverything "/m"
        { songs_cache := some [], id_to_path := [("deadbeef", "/m/gone.mp3")] }
        true).2.id_to_path = [("deadbeef", "/m/gone.mp3")] := by
  decide

/-- Witness for C5: on a fresh server, the installed map key set matches
the installed song ids (here: the single id of the scanned file's
resolved path). -/
theorem claim_c5_witness :
    sha1HexOfString "r" ∈ (scan_music_directory fsOneSong "/m"
        { songs_cache := none, id_to_path := [] } true).2.id_to_path.map Prod.fst
      ↔ (sha1HexOfString "r" ∈ (([] : List (String × String)).map Prod.fst)
          ∨ sha1HexOfString "r" ∈ (scan_music_directory fsOneSong "/m"
              { songs_cache := none, id_to_path := [] } true).1.map Song.id) :=
  (claim_c5_map_keys fsOneSong "/m" { songs_cache := none, id_to_path := [] } true
    (Or.inl rfl)).2.1 rfl (sha1HexOfString "r")

/-! ## Claim C6 — SHA-1 id of the canonical path, in both branches -/

/-- C6: every record a scan installs takes its id from some walked
entry as the SHA-1 hex digest of the UTF-8 bytes of that entry's resolved
absolute path, and — whether a record is produced by the normal branch or
by the fallback branch — two records for entries with the same resolved
path have the same id; the id is a pure function of the resolved path,
so it is stable across repeated scans and process restarts. -/
theorem claim_c6_sha1_id_scheme :
    (∀ (fs : FS) (musicDir : String) (st : ServerState) (s : Song),
        s ∈ (scan_music_directory fs musicDir st true).1 →
        ∃ e, e ∈ fs.entries ∧ s.id = sha1HexOfString e.resolved) ∧
    (∀ (e1 e2 : Entry) (s1 s2 : Song),
        e1.resolved = e2.resolved →
        (extract_metadata e1 = .ok (some s1) ∨ s1 = scanFallbackSong e1) →
        (extract_metadata e2 = .ok (some s2) ∨ s2 = scanFallbackSong e2) →
        s1.id = s2.id) := by
  constructor
  · intro fs musicDir st s hmem
    by_cases hex : fs.fexists musicDir = true
    · rw [scan_music_directory_run fs musicDir st true (Or.inl rfl) hex] at hmem
      rw [scanFold_fst] at hmem
      simp only [List.nil_append] at hmem
      obtain ⟨e, he, _, hcase⟩ := mem_scanSongs fs.entries s hmem
      rcases hcase with hca | ⟨-, rfl⟩
      · exact ⟨e, he, extract_metadata_id e s hca⟩
      · exact ⟨e, he, rfl⟩
    · have hex' : fs.fexists musicDir = false := by
        simpa using hex
      rw [scan_music_directory_missing fs musicDir st true (Or.inl rfl) hex'] at hmem
      simp at hmem
  · intro e1 e2 s1 s2 hres h1 h2
    have hid1 : s1.id = sha1HexOfString e1.resolved := by
      rcases h1 with h | rfl
      · exact extract_metadata_id e1 s1 h
      · rfl
    have hid2 : s2.id = sha1HexOfString e2.resolved := by
      rcases h2 with h | rfl
      · exact extract_metadata_id e2 s2 h
      · rfl
    rw [hid1, hid2, hres]

/-- Witness for C6: the record scanned from `fsOneSong` carries the
SHA-1 id of its entry's resolved path `r`. -/
theorem claim_c6_witness :
    ∃ e, e ∈ fsOneSong.entries ∧ songOneSong.id = sha1HexOfString e.resolved :=
  claim_c6_sha1_id_scheme.1 fsOneSong "/m" { songs_cache := none, id_to_path := [] }
    songOneSong (by decide)

/-! ## Claim C8 — no embedded picture means 404 -/

/-- C8: when an album-art request's id resolves to a path whose audio
object is unreadable by the parser (`mutagen.File → None`), has no or
falsy tags, or has tags without any `APIC:` item, picture list entry or
`covr` atom, `serve_album_art` answers 404 Not Found — not 500 and not
an uncaught exception. -/
theorem claim_c8_no_art_404 (fs : FS) (musicDir : String) (st : ServerState)
    (song_id p : String) (hres : (resolveArtPath fs musicDir st song_id).1 = some p)
    (hcase : fs.audioOf p = .noFile ∨ fs.audioOf p = .opened none ∨
      ∃ t, fs.audioOf p = .opened (some t) ∧
        (t.truthy = false
          ∨ (t.items.any (fun kv => isApicKey kv.1) = false
              ∧ t.pictures = [] ∧ t.covr = []))) :
    (serve_album_art fs musicDir st song_id).1.status = 404 := by
  rcases hcase with h | h | ⟨t, ht, hsub⟩
  · simp [serve_album_art, hres, h, sendError]
  · simp [serve_album_art, hres, h, sendError]
  · rcases hsub with htr | ⟨hap, hpic, hcov⟩
    · simp [serve_album_art, hres, ht, htr, sendError]
    · by_cases htr2 : t.truthy = false
      · simp [serve_album_art, hres, ht, htr2, sendError]
      · simp [serve_album_art, hres, ht, htr2, hap, hpic, hcov, sendError]

/-- Witness for C8: an id resolving to a file whose tags hold no picture
is answered 404. -/
theorem claim_c8_witness :
    (serve_album_art fsNoArt "/m"
        { songs_cache := none, id_to_path := [("idA", "/m/a.mp3")] } "idA").1.status = 404 :=
  claim_c8_no_art_404 fsNoArt "/m"
    { songs_cache := none, id_to_path := [("idA", "/m/a.mp3")] } "idA" "/m/a.mp3"
    (by decide)
    (Or.inr (Or.inr ⟨artNoPicTags, rfl, Or.inr ⟨by decide, rfl, rfl⟩⟩))

end MusicServer
